import Mathlib

/-!
# Windows bootloader utilities (`source/windows/utils.c`)

A shallow embedding of the path helpers, the activation-context manager and the
child-process supervisor of the PyInstaller 2.0 Windows bootloader shipped in
`build/helpers/pyinstaller-2.0`, followed by theorems about them.

Conventions of the embedding

* A C string is the list of its characters, terminator excluded.  A `char`
  array is the list of its cells (`CBuf`); the string stored in it is read back
  with `cstr`, which stops at the first terminator.
* A write outside an array is undefined behaviour in C; the embedding gives such
  a run no result (`none`).
* Calls into the operating system and the C runtime are recorded, in order, in
  a list of `OsCall`s; what each call answers is supplied by an environment
  record, one per invocation of the embedded function.
-/

set_option autoImplicit false

namespace Bootloader

/-! ## C strings and character arrays -/

/-- The string terminator. -/
def NUL : Char := Char.ofNat 0

/-- The cells of a `char` array. -/
abbrev CBuf := List Char

/-- The C string that starts at the first cell of an array. -/
def cstr (buf : CBuf) : List Char := buf.takeWhile (fun c => c != NUL)

/-- The C library `strlen` on the string that starts at the first cell. -/
def strlen (buf : CBuf) : Nat := (cstr buf).length

/-- The C library `strcpy (dst + off, src)`: the characters of `src` and a
terminator are stored from cell `off` on.  No result when they do not fit. -/
def strcpy (dst : CBuf) (off : Nat) (src : List Char) : Option CBuf :=
  if off + src.length + 1 ≤ dst.length then
    some (dst.take off ++ (src ++ NUL :: dst.drop (off + src.length + 1)))
  else none

/-- The C library `strcat (dst, src)`: `src` is copied over the terminator of
the string held in `dst`. -/
def strcat (dst : CBuf) (src : List Char) : Option CBuf :=
  strcpy dst (strlen dst) src

/-- The store `buf[i] = c`.  No result outside the array. -/
def poke (buf : CBuf) (i : Nat) (c : Char) : Option CBuf :=
  if i < buf.length then some (buf.set i c) else none

/-- The C library `strrchr (s, c)` as the offset of the last occurrence of `c`
in `s`, the terminator counting as part of the string; `none` is the null
pointer. -/
def strrchr (s : List Char) (c : Char) : Option Nat :=
  if c = NUL then some s.length
  else
    match s with
    | [] => none
    | x :: xs =>
      match strrchr xs c with
      | some i => some (i + 1)
      | none => if x = c then some 0 else none

/-- Source `basename` (utils.c, lines 36-45).  The returned pointer into `path`
is rendered as the string that starts there. -/
def basename (path : List Char) : List Char :=
  let basename := strrchr path '\\'
  let basename := if basename.isNone then strrchr path '/' else basename
  match basename with
  | some i => path.drop (i + 1)
  | none => path

/-- The `for` loop of `get_homepath` (utils.c, line 181), started with `p` at
offset `p` of `homepath`: it steps `p` down while `*p != '\\' && p >= homepath + 2`
and yields the offset at which it stops. -/
def get_homepath_loop (homepath : CBuf) : Nat → Nat
  | 0 => 0
  | p + 1 =>
    if homepath.getD (p + 1) NUL != '\\' && decide (p + 1 ≥ 2) then
      get_homepath_loop homepath p
    else p + 1

/-- Source `get_homepath` (utils.c, lines 176-183). -/
def get_homepath (homepath : CBuf) (thisfile : List Char) : Option CBuf :=
  match strcpy homepath 0 thisfile with
  | none => none
  | some homepath =>
    let p := get_homepath_loop homepath (strlen homepath)
    poke homepath (p + 1) NUL

/-- Source `get_archivefile` (utils.c, lines 185-189).  `strlen - 3` below the
start of the array has no result. -/
def get_archivefile (archivefile : CBuf) (thisfile : List Char) : Option CBuf :=
  match strcpy archivefile 0 thisfile with
  | none => none
  | some archivefile =>
    if strlen archivefile < 3 then none
    else strcpy archivefile (strlen archivefile - 3) ['p', 'k', 'g']

/-! ## Handles, signals and recorded calls -/

/-- A Win32 `HANDLE`, as the integer value of the pointer. -/
abbrev HANDLE := Int

/-- The Win32 constant `INVALID_HANDLE_VALUE`, `(HANDLE)-1`. -/
def INVALID_HANDLE_VALUE : HANDLE := -1

/-- An activation cookie (`ULONG_PTR`). -/
abbrev ULONG_PTR := Nat

/-- A function pointer answered by `GetProcAddress`; `0` is the null pointer. -/
abbrev FARPROC := Nat

/-- The C runtime constant `_MAX_PATH`. -/
def _MAX_PATH : Nat := 260

/-- The Win32 constant `STARTF_USESHOWWINDOW`. -/
def STARTF_USESHOWWINDOW : Nat := 0x1

/-- The Win32 constant `STARTF_USESTDHANDLES`. -/
def STARTF_USESTDHANDLES : Nat := 0x100

/-- The Win32 constant `SW_NORMAL`. -/
def SW_NORMAL : Nat := 1

/-- The Win32 constant `INFINITE`. -/
def INFINITE : Nat := 0xFFFFFFFF

/-- The signals of the Microsoft C runtime. -/
inductive Signal
  | SIGINT
  | SIGILL
  | SIGFPE
  | SIGSEGV
  | SIGTERM
  | SIGBREAK
  | SIGABRT
  deriving DecidableEq

/-- What a process does with a signal. -/
inductive Disposition
  | SIG_DFL
  | SIG_IGN
  | handler (fn : Nat)
  deriving DecidableEq

/-- The three standard streams of the C runtime. -/
inductive Stream
  | stdin
  | stdout
  | stderr
  deriving DecidableEq

/-- The fields of `SECURITY_ATTRIBUTES` that `spawn` sets (`nLength` is the size
of the structure). -/
structure SECURITY_ATTRIBUTES where
  lpSecurityDescriptor : Option Nat
  bInheritHandle : Bool
  deriving DecidableEq

/-- The Win32 `STARTUPINFOW`: the fields `spawn` assigns, and `others` for the
remaining ones, which stay as `GetStartupInfoW` filled them. -/
structure STARTUPINFOW where
  lpReserved : Option (List Char)
  lpDesktop : Option (List Char)
  lpTitle : Option (List Char)
  dwFlags : Nat
  wShowWindow : Nat
  hStdInput : HANDLE
  hStdOutput : HANDLE
  hStdError : HANDLE
  others : Nat
  deriving DecidableEq

/-- The Win32 `PROCESS_INFORMATION`. -/
structure PROCESS_INFORMATION where
  hProcess : HANDLE
  hThread : HANDLE
  dwProcessId : Nat
  dwThreadId : Nat
  deriving DecidableEq

/-- One call that leaves the embedded code, with its arguments. -/
inductive OsCall
  | GetVersionEx
  | LoadLibrary (name : String)
  | GetProcAddress (hModule : HANDLE) (name : String)
  | CreateActCtx (lpSource : List Char)
  | ActivateActCtx (hActCtx : HANDLE)
  | DeactivateActCtx (dwFlags : Nat) (ulCookie : ULONG_PTR)
  | ReleaseActCtx (hActCtx : HANDLE)
  /-- Modelled from the spec: the macro `VS` of the bootloader headers, which are
  not among the sources; it logs a diagnostic message and hands control back. -/
  | VS (format : String) (args : List (List Char))
  /-- Modelled from the spec: the macro `FATALERROR` of the bootloader headers,
  which are not among the sources; it reports a fatal, user-visible error and
  hands control back, as the statements that follow its uses show. -/
  | FATALERROR (message : String)
  | signal (sig : Signal) (disp : Disposition)
  | GetStartupInfoW
  | get_osfhandle (fd : Int)
  | GetCommandLineW
  | CreateProcessW (lpApplicationName : List Char) (lpCommandLine : List Char)
      (lpProcessAttributes : Option SECURITY_ATTRIBUTES)
      (lpThreadAttributes : Option SECURITY_ATTRIBUTES) (bInheritHandles : Bool)
      (dwCreationFlags : Nat) (lpEnvironment : Option Nat)
      (lpCurrentDirectory : Option (List Char)) (si : STARTUPINFOW)
  | WaitForSingleObject (hHandle : HANDLE) (dwMilliseconds : Nat)
  | GetExitCodeProcess (hProcess : HANDLE)
  deriving DecidableEq

/-- Whether a recorded call is `ReleaseActCtx`. -/
def OsCall.isRelease : OsCall → Bool
  | .ReleaseActCtx _ => true
  | _ => false

/-- Whether a recorded call loads a library, looks up an entry point, or creates,
activates, deactivates or releases an activation context. -/
def OsCall.isActCtxWork : OsCall → Bool
  | .LoadLibrary _ => true
  | .GetProcAddress _ _ => true
  | .CreateActCtx _ => true
  | .ActivateActCtx _ => true
  | .DeactivateActCtx _ _ => true
  | .ReleaseActCtx _ => true
  | _ => false

/-- Whether a recorded call is `signal`. -/
def OsCall.isSignal : OsCall → Bool
  | .signal _ _ => true
  | _ => false

/-- Whether a recorded call is `CreateProcessW`. -/
def OsCall.isCreateProcess : OsCall → Bool
  | .CreateProcessW _ _ _ _ _ _ _ _ _ => true
  | _ => false

/-- Whether a recorded call is `WaitForSingleObject`. -/
def OsCall.isWait : OsCall → Bool
  | .WaitForSingleObject _ _ => true
  | _ => false

/-- Whether a recorded call is `GetExitCodeProcess`. -/
def OsCall.isGetExitCode : OsCall → Bool
  | .GetExitCodeProcess _ => true
  | _ => false

/-- The handles passed to `ReleaseActCtx` in a sequence of calls, in order. -/
def releasedHandles (calls : List OsCall) : List HANDLE :=
  calls.filterMap fun
    | .ReleaseActCtx h => some h
    | _ => none

/-! ## Activation context manager -/

/-- The file-scope variables `hCtx` and `actToken` (utils.c, lines 47-48). -/
structure ActState where
  hCtx : HANDLE
  actToken : ULONG_PTR
  deriving DecidableEq

/-- The values the two variables have when the program starts. -/
def ActState.initial : ActState := { hCtx := INVALID_HANDLE_VALUE, actToken := 0 }

/-- The two version fields of `OSVERSIONINFO` that the code reads. -/
structure OSVERSIONINFO where
  dwMajorVersion : Nat
  dwMinorVersion : Nat
  deriving DecidableEq

/-- Source `IsXPOrLater` (utils.c, lines 54-65).  `answer` is what `GetVersionEx`
stores; when the call fails the structure keeps the zeros of `ZeroMemory`.  The
C `int` result is rendered as a `Bool`. -/
def IsXPOrLater (answer : Option OSVERSIONINFO) : Bool :=
  let osvi : OSVERSIONINFO := { dwMajorVersion := 0, dwMinorVersion := 0 }
  let osvi := match answer with
    | some v => v
    | none => osvi
  decide (osvi.dwMajorVersion > 5) ||
    (decide (osvi.dwMajorVersion = 5) && decide (osvi.dwMinorVersion ≥ 1))

/-- What `ActivateActCtx` answers: success with the cookie it stores, or failure,
which may or may not have stored something through the cookie pointer. -/
inductive ActivateResult
  | activated (cookie : ULONG_PTR)
  | failed (stored : Option ULONG_PTR)
  deriving DecidableEq

/-- What the system answers during one call of `CreateActContext`. -/
structure CreateEnv where
  /-- What `GetVersionEx` stores. -/
  version : Option OSVERSIONINFO
  /-- The handle answered by `LoadLibrary ("kernel32")`. -/
  k32 : HANDLE
  /-- The address answered by `GetProcAddress (k32, "CreateActCtxA")`. -/
  pCreateActCtx : FARPROC
  /-- The address answered by `GetProcAddress (k32, "ActivateActCtx")`. -/
  pActivateActCtx : FARPROC
  /-- The handle answered by the context creation call. -/
  created : HANDLE
  /-- The answer of the activation call. -/
  activation : ActivateResult

/-- Lines 81-83 of `CreateActContext`: the manifest path assembled in the local
array `manifestpath`, which has `_MAX_PATH + 1` cells.  The initial content of
the array is never read. -/
def CreateActContext.manifestpath (workpath thisfile : List Char) : Option CBuf :=
  match strcpy (List.replicate (_MAX_PATH + 1) NUL) 0 workpath with
  | none => none
  | some manifestpath =>
    match strcat manifestpath (basename thisfile) with
    | none => none
    | some manifestpath => strcat manifestpath ".manifest".toList

/-- Source `CreateActContext` (utils.c, lines 67-115).  The result is the
returned `int`, the two file-scope variables afterwards, and the calls made. -/
def CreateActContext (env : CreateEnv) (st : ActState) (workpath thisfile : List Char) :
    Option (Int × ActState × List OsCall) :=
  if !IsXPOrLater env.version then some (1, st, [OsCall.GetVersionEx])
  else
    match CreateActContext.manifestpath workpath thisfile with
    | none => none
    | some manifestpath =>
      let calls := [OsCall.GetVersionEx,
        OsCall.VS "manifestpath: %s\n" [cstr manifestpath],
        OsCall.LoadLibrary "kernel32",
        OsCall.GetProcAddress env.k32 "CreateActCtxA",
        OsCall.GetProcAddress env.k32 "ActivateActCtx"]
      if env.pCreateActCtx = 0 || env.pActivateActCtx = 0 then
        some (0, st, calls ++
          [OsCall.VS "Cannot find CreateActCtx/ActivateActCtx exports in kernel32.dll\n" []])
      else
        let calls := calls ++ [OsCall.CreateActCtx (cstr manifestpath)]
        let st := { st with hCtx := env.created }
        if st.hCtx ≠ INVALID_HANDLE_VALUE then
          let calls := calls ++ [OsCall.VS "Activation context created\n" [],
            OsCall.ActivateActCtx st.hCtx]
          match env.activation with
          | .activated cookie =>
            some (1, { st with actToken := cookie },
              calls ++ [OsCall.VS "Activation context activated\n" []])
          | .failed stored =>
            some (0, { hCtx := INVALID_HANDLE_VALUE, actToken := stored.getD st.actToken },
              calls ++ [OsCall.VS "Error activating the context\n" []])
        else
          some (0, { st with hCtx := INVALID_HANDLE_VALUE },
            calls ++ [OsCall.VS "Error activating the context\n" []])

/-- What `DeactivateActCtx` does: it returns a `BOOL`, or it raises a structured
exception with the given code. -/
inductive DeactivateResult
  | returned (ok : Bool)
  | raised (code : Nat)
  deriving DecidableEq

/-- What the system answers during one call of `ReleaseActContext`. -/
structure ReleaseEnv where
  /-- What `GetVersionEx` stores. -/
  version : Option OSVERSIONINFO
  /-- The handle answered by `LoadLibrary ("kernel32")`. -/
  k32 : HANDLE
  /-- The address answered by `GetProcAddress (k32, "ReleaseActCtx")`. -/
  pReleaseActCtx : FARPROC
  /-- The address answered by `GetProcAddress (k32, "DeactivateActCtx")`. -/
  pDeactivateActCtx : FARPROC
  /-- The behaviour of the deactivation call. -/
  deactivation : DeactivateResult

/-- Source `ReleaseActContext` (utils.c, lines 117-149).  The result is the two
file-scope variables afterwards and the calls made.  A structured exception
raised by `DeactivateActCtx` leaves the guarded block through the filter of
`__except`; what follows is decided by the exception dispatcher, and such a
run is given no result here. -/
def ReleaseActContext (env : ReleaseEnv) (st : ActState) : Option (ActState × List OsCall) :=
  if !IsXPOrLater env.version then some (st, [OsCall.GetVersionEx])
  else
    let calls := [OsCall.GetVersionEx,
      OsCall.LoadLibrary "kernel32",
      OsCall.GetProcAddress env.k32 "ReleaseActCtx",
      OsCall.GetProcAddress env.k32 "DeactivateActCtx"]
    if env.pReleaseActCtx = 0 || env.pDeactivateActCtx = 0 then
      some (st, calls ++
        [OsCall.VS "Cannot find ReleaseActCtx/DeactivateActCtx exports in kernel32.dll\n" []])
    else
      let calls := calls ++ [OsCall.VS "Deactivating activation context\n" [],
        OsCall.DeactivateActCtx 0 st.actToken]
      match env.deactivation with
      | .raised _ => none
      | .returned ok =>
        let calls := if !ok then calls ++ [OsCall.VS "Error deactivating context!\n!" []]
          else calls
        let calls := calls ++ [OsCall.VS "Releasing activation context\n" []]
        let calls := if st.hCtx ≠ INVALID_HANDLE_VALUE then
            calls ++ [OsCall.ReleaseActCtx st.hCtx]
          else calls
        some (st, calls ++ [OsCall.VS "Done\n" []])

/-! ## Process supervisor -/

/-- The table of signal dispositions of the process. -/
abbrev SignalTable := Signal → Disposition

/-- The C library `signal (sig, disp)` on the table of dispositions. -/
def signal (table : SignalTable) (sig : Signal) (disp : Disposition) : SignalTable :=
  fun s => if s = sig then disp else table s

/-- The table of dispositions after a sequence of recorded calls: only `signal`
changes it. -/
def dispositionsAfter (table : SignalTable) : List OsCall → SignalTable
  | [] => table
  | OsCall.signal sig disp :: rest => dispositionsAfter (signal table sig disp) rest
  | _ :: rest => dispositionsAfter table rest

/-- The `int` whose 32-bit object representation is that of the `DWORD` `c`. -/
def toInt32 (c : Nat) : Int :=
  if c % 2 ^ 32 < 2 ^ 31 then (c % 2 ^ 32 : Nat) else ((c % 2 ^ 32 : Nat) : Int) - 2 ^ 32

/-- What the system answers during one call of `spawn`. -/
structure SpawnEnv where
  /-- The structure filled by `GetStartupInfoW`. -/
  startupInfo : STARTUPINFOW
  /-- The descriptor answered by `fileno`. -/
  fileno : Stream → Int
  /-- The handle answered by `_get_osfhandle`. -/
  osfhandle : Int → HANDLE
  /-- The string answered by `GetCommandLineW`. -/
  commandLine : List Char
  /-- The structure filled by `CreateProcessW`; `none` when it returns `FALSE`. -/
  processInformation : Option PROCESS_INFORMATION
  /-- The value returned by `WaitForSingleObject`. -/
  waitResult : Nat
  /-- The `DWORD` stored by `GetExitCodeProcess`; `none` when it fails and
  stores nothing. -/
  exitCode : Option Nat

/-- Lines 210-212 of `spawn`: the security attributes of the child. -/
def spawn.sa : SECURITY_ATTRIBUTES :=
  { lpSecurityDescriptor := none, bInheritHandle := true }

/-- Lines 213-221 of `spawn`: the startup information handed to the child. -/
def spawn.si (env : SpawnEnv) : STARTUPINFOW :=
  let si := env.startupInfo
  let si := { si with lpReserved := none }
  let si := { si with lpDesktop := none }
  let si := { si with lpTitle := none }
  let si := { si with dwFlags := STARTF_USESTDHANDLES ||| STARTF_USESHOWWINDOW }
  let si := { si with wShowWindow := SW_NORMAL }
  let si := { si with hStdInput := env.osfhandle (env.fileno .stdin) }
  let si := { si with hStdOutput := env.osfhandle (env.fileno .stdout) }
  let si := { si with hStdError := env.osfhandle (env.fileno .stderr) }
  si

/-- Lines 224-235 of `spawn`: the call of `CreateProcessW`. -/
def spawn.launch (env : SpawnEnv) (thisfile : List Char) : OsCall :=
  OsCall.CreateProcessW thisfile env.commandLine (some spawn.sa) none true 0 none none
    (spawn.si env)

/-- Source `spawn` (utils.c, lines 196-244).  The result is the returned `int`,
the table of signal dispositions afterwards, and the calls made. -/
def spawn (env : SpawnEnv) (table : SignalTable) (thisfile : List Char) :
    Int × SignalTable × List OsCall :=
  let rc : Int := 0
  let table := signal table .SIGABRT .SIG_IGN
  let table := signal table .SIGINT .SIG_IGN
  let table := signal table .SIGTERM .SIG_IGN
  let table := signal table .SIGBREAK .SIG_IGN
  let calls := [OsCall.signal .SIGABRT .SIG_IGN, OsCall.signal .SIGINT .SIG_IGN,
    OsCall.signal .SIGTERM .SIG_IGN, OsCall.signal .SIGBREAK .SIG_IGN,
    OsCall.VS "Setting up to run child\n" [],
    OsCall.GetStartupInfoW,
    OsCall.get_osfhandle (env.fileno .stdin), OsCall.get_osfhandle (env.fileno .stdout),
    OsCall.get_osfhandle (env.fileno .stderr),
    OsCall.VS "Creating child process\n" [],
    OsCall.GetCommandLineW,
    spawn.launch env thisfile]
  match env.processInformation with
  | some pi =>
    let calls := calls ++ [OsCall.VS "Waiting for child process to finish...\n" [],
      OsCall.WaitForSingleObject pi.hProcess INFINITE,
      OsCall.GetExitCodeProcess pi.hProcess]
    let rc := match env.exitCode with
      | some c => toInt32 c
      | none => rc
    (rc, table, calls)
  | none =>
    let calls := calls ++ [OsCall.FATALERROR "Error creating child process!\n"]
    let rc : Int := -1
    (rc, table, calls)

/-! ## Scenarios and sample environments -/

/-- A run of `CreateActContext` on an XP-or-later platform in which both entry
points resolve, creation answers the valid handle `h` and activation succeeds
with cookie `k`. -/
def CreateEnv.succeeds (env : CreateEnv) (h : HANDLE) (k : ULONG_PTR) : Prop :=
  IsXPOrLater env.version = true ∧ env.pCreateActCtx ≠ 0 ∧ env.pActivateActCtx ≠ 0 ∧
    env.created = h ∧ h ≠ INVALID_HANDLE_VALUE ∧ env.activation = .activated k

/-- A run of `ReleaseActContext` on an XP-or-later platform in which both entry
points resolve and deactivation succeeds. -/
def ReleaseEnv.succeeds (env : ReleaseEnv) : Prop :=
  IsXPOrLater env.version = true ∧ env.pReleaseActCtx ≠ 0 ∧ env.pDeactivateActCtx ≠ 0 ∧
    env.deactivation = .returned true

instance (env : CreateEnv) (h : HANDLE) (k : ULONG_PTR) : Decidable (env.succeeds h k) := by
  unfold CreateEnv.succeeds
  infer_instance

instance (env : ReleaseEnv) : Decidable env.succeeds := by
  unfold ReleaseEnv.succeeds
  infer_instance

/-- The sequence enter, exit, enter, exit: `CreateActContext`,
`ReleaseActContext`, `CreateActContext`, `ReleaseActContext`, each on the
variables left by the one before.  The result is the variables at the end and
all the calls made, in order. -/
def enterExitTwice (e1 : CreateEnv) (e2 : ReleaseEnv) (e3 : CreateEnv) (e4 : ReleaseEnv)
    (st : ActState) (workpath thisfile : List Char) : Option (ActState × List OsCall) :=
  match CreateActContext e1 st workpath thisfile with
  | none => none
  | some (_, s1, t1) =>
    match ReleaseActContext e2 s1 with
    | none => none
    | some (s2, t2) =>
      match CreateActContext e3 s2 workpath thisfile with
      | none => none
      | some (_, s3, t3) =>
        match ReleaseActContext e4 s3 with
        | none => none
        | some (s4, t4) => some (s4, t1 ++ t2 ++ t3 ++ t4)

/-- The four signals `spawn` sets to be ignored. -/
def ignoredSignals : List Signal := [.SIGABRT, .SIGINT, .SIGTERM, .SIGBREAK]

/-- Windows XP: version 5.1. -/
def windowsXP : OSVERSIONINFO := { dwMajorVersion := 5, dwMinorVersion := 1 }

/-- Windows 2000: version 5.0. -/
def windows2000 : OSVERSIONINFO := { dwMajorVersion := 5, dwMinorVersion := 0 }

/-- A sample environment for `CreateActContext`: Windows XP, both entry points
found, creation answers `h`, activation answers `a`. -/
def sampleCreateEnv (h : HANDLE) (a : ActivateResult) : CreateEnv :=
  { version := some windowsXP, k32 := 0x7C800000, pCreateActCtx := 0x7C8154FC,
    pActivateActCtx := 0x7C80A6E4, created := h, activation := a }

/-- A sample environment for `ReleaseActContext`: Windows XP, both entry points
found, deactivation returns `TRUE`. -/
def sampleReleaseEnv : ReleaseEnv :=
  { version := some windowsXP, k32 := 0x7C800000, pReleaseActCtx := 0x7C8130DC,
    pDeactivateActCtx := 0x7C80A715, deactivation := .returned true }

/-- The descriptors of the standard streams in a console program. -/
def sampleFileno : Stream → Int
  | .stdin => 0
  | .stdout => 1
  | .stderr => 2

/-- A sample answer of `GetStartupInfoW`. -/
def sampleStartupInfo : STARTUPINFOW :=
  { lpReserved := none, lpDesktop := some "WinSta0\\Default".toList,
    lpTitle := some "tool".toList, dwFlags := 0, wShowWindow := 0, hStdInput := 0,
    hStdOutput := 0, hStdError := 0, others := 0 }

/-- A sample environment for `spawn`: the standard streams are descriptors 0, 1
and 2; the launch answers `pi` and the exit code retrieval answers `code`. -/
def sampleSpawnEnv (pi : Option PROCESS_INFORMATION) (code : Option Nat) : SpawnEnv :=
  { startupInfo := sampleStartupInfo,
    fileno := sampleFileno,
    osfhandle := fun fd => 4 * fd + 3,
    commandLine := "tool.exe --verbose".toList,
    processInformation := pi,
    waitResult := 0,
    exitCode := code }

/-- A sample child process. -/
def sampleChild : PROCESS_INFORMATION :=
  { hProcess := 0x1F4, hThread := 0x1F8, dwProcessId := 3120, dwThreadId := 3124 }

/-! ## Facts about strings and arrays -/

theorem NUL_ne_backslash : NUL ≠ '\\' := by decide

theorem cstr_append_NUL (s r : List Char) (h : NUL ∉ s) : cstr (s ++ NUL :: r) = s := by
  induction s with
  | nil => simp [cstr]
  | cons x xs ih =>
    have hx : x ≠ NUL := fun e => h (by simp [e])
    have hxs : NUL ∉ xs := fun e => h (by simp [e])
    have := ih hxs
    simp only [cstr] at this ⊢
    simp [List.takeWhile_cons, hx, this]

theorem cstr_set_NUL (s r : List Char) (k : Nat) (h : NUL ∉ s) (hk : k ≤ s.length) :
    cstr ((s ++ NUL :: r).set k NUL) = s.take k := by
  induction s generalizing k with
  | nil =>
    have : k = 0 := by simpa using hk
    subst this
    simp [cstr]
  | cons x xs ih =>
    have hx : x ≠ NUL := fun e => h (by simp [e])
    have hxs : NUL ∉ xs := fun e => h (by simp [e])
    cases k with
    | zero => simp [cstr]
    | succ k =>
      have := ih k hxs (by simpa using hk)
      simp only [cstr] at this ⊢
      simp [List.takeWhile_cons, hx, this]

theorem cstr_set_after (s r : List Char) (k : Nat) (c : Char) (h : NUL ∉ s)
    (hk : s.length < k) : cstr ((s ++ NUL :: r).set k c) = s := by
  induction s generalizing k with
  | nil =>
    cases k with
    | zero => simp at hk
    | succ k => simp [cstr]
  | cons x xs ih =>
    have hx : x ≠ NUL := fun e => h (by simp [e])
    have hxs : NUL ∉ xs := fun e => h (by simp [e])
    cases k with
    | zero => simp at hk
    | succ k =>
      have := ih k hxs (by simpa using hk)
      simp only [cstr] at this ⊢
      simp [List.takeWhile_cons, hx, this]

theorem strcpy_zero (dst s : List Char) (h : s.length < dst.length) :
    strcpy dst 0 s = some (s ++ NUL :: dst.drop (s.length + 1)) := by
  have : s.length + 1 ≤ dst.length := by omega
  simp [strcpy, this]

theorem strlen_append_NUL (s r : List Char) (h : NUL ∉ s) :
    strlen (s ++ NUL :: r) = s.length := by
  simp [strlen, cstr_append_NUL s r h]

/-! ## Facts about the loop of `get_homepath` -/

theorem get_homepath_loop_le (b : CBuf) (p : Nat) : get_homepath_loop b p ≤ p := by
  induction p with
  | zero => simp [get_homepath_loop]
  | succ p ih =>
    simp only [get_homepath_loop]
    split
    · omega
    · exact le_rfl

theorem get_homepath_loop_skip (b : CBuf) (q p : Nat) (hq : 1 ≤ q) (hqp : q ≤ p)
    (h : ∀ i, q < i → i ≤ p → b.getD i NUL ≠ '\\') :
    get_homepath_loop b p = get_homepath_loop b q := by
  induction p with
  | zero => omega
  | succ p ih =>
    rcases Nat.lt_or_ge q (p + 1) with hlt | hge
    · have h1 : b.getD (p + 1) NUL ≠ '\\' := h (p + 1) hlt le_rfl
      have h2 : p + 1 ≥ 2 := by omega
      have ih2 := ih (by omega) (fun i hi hip => h i hi (by omega))
      have hc : (b.getD (p + 1) NUL != '\\' && decide (p + 1 ≥ 2)) = true := by
        simp only [Bool.and_eq_true, bne_iff_ne, ne_eq, decide_eq_true_eq]
        exact ⟨h1, h2⟩
      simp only [get_homepath_loop, hc, if_true]
      exact ih2
    · have : q = p + 1 := by omega
      rw [this]

theorem get_homepath_loop_stop (b : CBuf) (q : Nat) (hq : 1 ≤ q)
    (h : b.getD q NUL = '\\' ∨ q = 1) : get_homepath_loop b q = q := by
  cases q with
  | zero => omega
  | succ q =>
    simp only [get_homepath_loop]
    rcases h with h | h
    · have hc : (b.getD (q + 1) NUL != '\\' && decide (q + 1 ≥ 2)) = false := by
        rw [h]
        simp
      simp only [hc]
      simp
    · have : q = 0 := by omega
      subst this
      simp

theorem get_homepath_loop_congr (b c : CBuf) (p : Nat)
    (h : ∀ i, i ≤ p → b.getD i NUL = c.getD i NUL) :
    get_homepath_loop b p = get_homepath_loop c p := by
  induction p with
  | zero => simp [get_homepath_loop]
  | succ p ih =>
    simp only [get_homepath_loop]
    rw [h (p + 1) le_rfl, ih (fun i hi => h i (by omega))]

theorem getD_append_NUL_length (s r : List Char) : (s ++ NUL :: r).getD s.length NUL = NUL := by
  rw [List.getD_eq_getElem?_getD, List.getElem?_append_right (le_refl _)]
  simp

theorem getD_append_NUL (s r : List Char) (i : Nat) (hi : i ≤ s.length) :
    (s ++ NUL :: r).getD i NUL = (s ++ [NUL]).getD i NUL := by
  induction s generalizing i with
  | nil =>
    have : i = 0 := by simpa using hi
    subst this
    rfl
  | cons x xs ih =>
    cases i with
    | zero => rfl
    | succ i =>
      have := ih i (by simpa using hi)
      simpa [List.getD_cons_succ] using this

theorem get_homepath_loop_lt (s : List Char) (h : 2 ≤ s.length) :
    get_homepath_loop (s ++ [NUL]) s.length < s.length := by
  have hskip := get_homepath_loop_skip (s ++ [NUL]) (s.length - 1) s.length (by omega)
    (by omega) (fun i hi hi2 => by
      have : i = s.length := by omega
      subst this
      rw [getD_append_NUL_length]
      exact NUL_ne_backslash)
  have := get_homepath_loop_le (s ++ [NUL]) (s.length - 1)
  omega

/-- What `get_homepath` stores for a terminator-free path that fits the array:
the characters up to and including the offset at which the loop stops. -/
theorem get_homepath_result (hp s : List Char) (hnul : NUL ∉ s)
    (hcap : s.length < hp.length) (h3 : 3 ≤ hp.length) :
    ∃ b, get_homepath hp s = some b ∧
      cstr b = s.take (get_homepath_loop (s ++ [NUL]) s.length + 1) := by
  have hloop : get_homepath_loop (s ++ NUL :: hp.drop (s.length + 1)) s.length
      = get_homepath_loop (s ++ [NUL]) s.length :=
    get_homepath_loop_congr _ _ _ (fun i hi => getD_append_NUL s _ i hi)
  have hle := get_homepath_loop_le (s ++ [NUL]) s.length
  have hlen : (s ++ NUL :: hp.drop (s.length + 1)).length = hp.length := by
    simp only [List.length_append, List.length_cons, List.length_drop]
    omega
  have hidx : get_homepath_loop (s ++ [NUL]) s.length + 1 < hp.length := by
    rcases Nat.lt_or_ge s.length 2 with h2 | h2
    · omega
    · have := get_homepath_loop_lt s h2
      omega
  simp only [get_homepath, strcpy_zero hp s hcap, strlen_append_NUL s _ hnul, hloop, poke,
    hlen, hidx, if_true]
  refine ⟨_, rfl, ?_⟩
  rcases Nat.lt_or_ge s.length (get_homepath_loop (s ++ [NUL]) s.length + 1) with h | h
  · rw [cstr_set_after s _ _ NUL hnul h, List.take_of_length_le (by omega)]
  · exact cstr_set_NUL s _ _ hnul h

/-- What `get_archivefile` stores for a terminator-free path of at least three
characters that fits the array. -/
theorem get_archivefile_result (af s : List Char) (hnul : NUL ∉ s) (hlen : 3 ≤ s.length)
    (hcap : s.length < af.length) :
    ∃ b, get_archivefile af s = some b ∧ cstr b = s.take (s.length - 3) ++ ['p', 'k', 'g'] := by
  have hblen : (s ++ NUL :: af.drop (s.length + 1)).length = af.length := by
    simp only [List.length_append, List.length_cons, List.length_drop]
    omega
  have hfit : s.length - 3 + ['p', 'k', 'g'].length + 1
      ≤ (s ++ NUL :: af.drop (s.length + 1)).length := by
    rw [hblen]
    simp only [List.length_cons, List.length_nil]
    omega
  have hn3 : ¬ s.length < 3 := by omega
  unfold get_archivefile
  rw [strcpy_zero af s hcap]
  simp only [strlen_append_NUL s _ hnul, hn3, if_false]
  simp only [strcpy, hfit, if_true]
  refine ⟨_, rfl, ?_⟩
  have htake : (s ++ NUL :: af.drop (s.length + 1)).take (s.length - 3) = s.take (s.length - 3) := by
    rw [List.take_append_of_le_length (by omega)]
  rw [htake, ← List.append_assoc]
  apply cstr_append_NUL
  intro hmem
  rcases List.mem_append.1 hmem with hm | hm
  · exact hnul (List.mem_of_mem_take hm)
  · revert hm
    decide

theorem getD_ne_of_forall (l : List Char) (k : Nat) (d c : Char)
    (h : ∀ x ∈ l, x ≠ c) (hd : d ≠ c) : l.getD k d ≠ c := by
  induction l generalizing k with
  | nil => simpa using hd
  | cons x xs ih =>
    cases k with
    | zero => simpa using h x (by simp)
    | succ k =>
      rw [List.getD_cons_succ]
      exact ih k (fun y hy => h y (by simp [hy]))

/-- The loop of `get_homepath` stops at a backslash that is not the first
character and has no backslash after it. -/
theorem get_homepath_loop_at_last_backslash (pre post : List Char) (hpre : pre ≠ [])
    (hlast : '\\' ∉ post) :
    get_homepath_loop ((pre ++ '\\' :: post) ++ [NUL]) (pre ++ '\\' :: post).length
      = pre.length := by
  have hq : 1 ≤ pre.length := by
    cases pre with
    | nil => exact absurd rfl hpre
    | cons x xs => simp
  have hb : (pre ++ '\\' :: post) ++ [NUL] = pre ++ ('\\' :: (post ++ [NUL])) := by simp
  rw [hb]
  have hskip := get_homepath_loop_skip (pre ++ ('\\' :: (post ++ [NUL]))) pre.length
    (pre ++ '\\' :: post).length hq (by simp) (fun i hi _ => by
      rw [List.getD_append_right _ _ _ _ (by omega)]
      obtain ⟨k, hk⟩ : ∃ k, i - pre.length = k + 1 := ⟨i - pre.length - 1, by omega⟩
      rw [hk, List.getD_cons_succ]
      apply getD_ne_of_forall _ _ _ _ _ NUL_ne_backslash
      intro x hx
      rcases List.mem_append.1 hx with hx | hx
      · exact fun e => hlast (e ▸ hx)
      · have : x = NUL := by simpa using hx
        rw [this]
        exact NUL_ne_backslash)
  rw [hskip]
  apply get_homepath_loop_stop _ _ hq
  left
  rw [List.getD_append_right _ _ _ _ (le_refl _)]
  simp

/-- The loop of `get_homepath` stops at offset 1 when no character after the
first is a backslash. -/
theorem get_homepath_loop_no_backslash (x : Char) (post : List Char) (hlast : '\\' ∉ post) :
    get_homepath_loop ((x :: post) ++ [NUL]) (x :: post).length = 1 := by
  have hskip := get_homepath_loop_skip ((x :: post) ++ [NUL]) 1 (x :: post).length
    (le_refl _) (by simp) (fun i hi _ => by
      obtain ⟨k, hk⟩ : ∃ k, i = k + 1 := ⟨i - 1, by omega⟩
      rw [hk, List.cons_append, List.getD_cons_succ]
      apply getD_ne_of_forall _ _ _ _ _ NUL_ne_backslash
      intro y hy
      rcases List.mem_append.1 hy with hy | hy
      · exact fun e => hlast (e ▸ hy)
      · have : y = NUL := by simpa using hy
        rw [this]
        exact NUL_ne_backslash)
  rw [hskip]
  exact get_homepath_loop_stop _ 1 (le_refl _) (Or.inr rfl)

/-! ## `get_homepath` -/

/-- C8, as stated, fails: for the path `\ab`, which contains a backslash,
`get_homepath` stores `\a`, not the part up to and including the last
backslash, which is `\`. -/
theorem get_homepath_leading_backslash :
    '\\' ∈ ['\\', 'a', 'b'] ∧
    Option.map cstr (get_homepath (List.replicate 8 'x') ['\\', 'a', 'b']) = some ['\\', 'a'] ∧
    ['\\', 'a', 'b'] = [] ++ '\\' :: ['a', 'b'] ∧ '\\' ∉ ['a', 'b'] ∧
    ['\\', 'a'] ≠ [] ++ ['\\'] := by
  decide

/-- C8 (amended): let the path `thisfile`, free of terminators and fitting the
array, be `pre ++ '\\' :: post` with no backslash in `post`.  `get_homepath`
returns, and when the last backslash is not the first character (or the path is
the single backslash) the stored string is `pre` followed by that backslash;
when the only backslash is the first character of a longer path, the stored
string is the first two characters of the path. -/
theorem get_homepath_spec (homepath thisfile pre post : List Char) (hnul : NUL ∉ thisfile)
    (hcap : thisfile.length < homepath.length) (h3 : 3 ≤ homepath.length)
    (hsplit : thisfile = pre ++ '\\' :: post) (hlast : '\\' ∉ post) :
    ∃ b, get_homepath homepath thisfile = some b ∧
      ((pre ≠ [] ∨ post = []) → cstr b = pre ++ ['\\']) ∧
      (pre = [] → post ≠ [] → cstr b = thisfile.take 2) := by
  obtain ⟨b, hb, hc⟩ := get_homepath_result homepath thisfile hnul hcap h3
  refine ⟨b, hb, ?_, ?_⟩
  · intro h
    rw [hc]
    by_cases hpre : pre = []
    · have hpost : post = [] := by
        rcases h with h | h
        · exact absurd hpre h
        · exact h
      subst hsplit
      subst hpre
      subst hpost
      decide
    · subst hsplit
      rw [get_homepath_loop_at_last_backslash pre post hpre hlast]
      have : pre ++ '\\' :: post = (pre ++ ['\\']) ++ post := by simp
      rw [this, List.take_append_of_le_length (by simp)]
      exact List.take_of_length_le (by simp)
  · intro hpre _
    rw [hc]
    subst hsplit
    subst hpre
    rw [List.nil_append, get_homepath_loop_no_backslash '\\' post hlast]

/-- C8 at the path of the specification: `C:\apps\tool.exe` yields `C:\apps\`. -/
theorem get_homepath_spec_witness :
    ∃ b, get_homepath (List.replicate (_MAX_PATH + 1) 'x') "C:\\apps\\tool.exe".toList = some b ∧
      cstr b = "C:\\apps\\".toList := by
  obtain ⟨b, hb, h, _⟩ := get_homepath_spec (List.replicate (_MAX_PATH + 1) 'x')
    "C:\\apps\\tool.exe".toList "C:\\apps".toList "tool.exe".toList
    (by decide) (by rw [List.length_replicate]; decide)
    (by rw [List.length_replicate]; decide) (by decide) (by decide)
  exact ⟨b, hb, h (Or.inl (by decide))⟩

/-! ## `get_archivefile` -/

/-- C9: for every path of at least three characters (free of terminators and
fitting the array) `get_archivefile` returns, and the stored string has the
length of the path, agrees with it on every character before the final three,
and ends in `pkg`. -/
theorem get_archivefile_spec (archivefile thisfile : List Char) (hnul : NUL ∉ thisfile)
    (hlen : 3 ≤ thisfile.length) (hcap : thisfile.length < archivefile.length) :
    ∃ b, get_archivefile archivefile thisfile = some b ∧
      (cstr b).length = thisfile.length ∧
      (∀ i, i + 3 < thisfile.length → (cstr b)[i]? = thisfile[i]?) ∧
      (cstr b).drop (thisfile.length - 3) = ['p', 'k', 'g'] := by
  obtain ⟨b, hb, hc⟩ := get_archivefile_result archivefile thisfile hnul hlen hcap
  refine ⟨b, hb, ?_, ?_, ?_⟩
  · rw [hc]
    simp only [List.length_append, List.length_take, List.length_cons, List.length_nil]
    omega
  · intro i hi
    rw [hc, List.getElem?_append_left (by simp; omega), List.getElem?_take_of_lt (by omega)]
  · rw [hc]
    exact List.drop_left' (by simp)

/-- C9 at the path of the specification: `C:\apps\tool.exe` yields
`C:\apps\tool.pkg`. -/
theorem get_archivefile_spec_witness :
    ∃ b, get_archivefile (List.replicate (_MAX_PATH + 1) 'x') "C:\\apps\\tool.exe".toList = some b ∧
      (cstr b).length = 16 ∧
      (∀ i, i + 3 < 16 → (cstr b)[i]? = "C:\\apps\\tool.exe".toList[i]?) ∧
      (cstr b).drop 13 = ['p', 'k', 'g'] :=
  get_archivefile_spec (List.replicate (_MAX_PATH + 1) 'x') "C:\\apps\\tool.exe".toList
    (by decide) (by decide) (by rw [List.length_replicate]; decide)

/-- Behind a non-empty stem and a dot, an extension without backslash is
stepped over by the loop of `get_homepath`, whatever its characters are. -/
theorem get_homepath_loop_extension (stem t : List Char) (hstem : stem ≠ [])
    (ht : '\\' ∉ t) :
    get_homepath_loop ((stem ++ '.' :: t) ++ [NUL]) (stem ++ '.' :: t).length
      = get_homepath_loop (stem ++ ['.']) stem.length := by
  have hq : 1 ≤ stem.length := by
    cases stem with
    | nil => exact absurd rfl hstem
    | cons x xs => simp
  have hb : (stem ++ '.' :: t) ++ [NUL] = (stem ++ ['.']) ++ (t ++ [NUL]) := by simp
  rw [hb]
  have hskip := get_homepath_loop_skip ((stem ++ ['.']) ++ (t ++ [NUL])) stem.length
    (stem ++ '.' :: t).length hq (by simp) (fun i hi _ => by
      rw [List.getD_append_right _ _ _ _ (by simp; omega)]
      apply getD_ne_of_forall _ _ _ _ _ NUL_ne_backslash
      intro x hx
      rcases List.mem_append.1 hx with hx | hx
      · exact fun e => ht (e ▸ hx)
      · have : x = NUL := by simpa using hx
        rw [this]
        exact NUL_ne_backslash)
  rw [hskip]
  apply get_homepath_loop_congr
  intro i hi
  exact List.getD_append _ _ _ i (by simp; omega)

/-- C10: for every path (free of terminators, fitting the arrays) that contains
a backslash and ends in a dot followed by three characters none of which is a
backslash or a forward slash, `get_archivefile` and `get_homepath` return, and
`get_homepath` stores the same directory for the archive path as for the path
itself. -/
theorem archive_in_home_directory (archivefile homepath homepath2 thisfile stem : List Char)
    (c1 c2 c3 : Char) (hnul : NUL ∉ thisfile) (hbs : '\\' ∈ thisfile)
    (hext : thisfile = stem ++ ['.', c1, c2, c3])
    (h1 : c1 ≠ '\\' ∧ c1 ≠ '/') (h2 : c2 ≠ '\\' ∧ c2 ≠ '/') (h3 : c3 ≠ '\\' ∧ c3 ≠ '/')
    (hcapa : thisfile.length < archivefile.length)
    (hcap : thisfile.length < homepath.length)
    (hcap2 : thisfile.length < homepath2.length) :
    ∃ a h h2, get_archivefile archivefile thisfile = some a ∧
      get_homepath homepath thisfile = some h ∧
      get_homepath homepath2 (cstr a) = some h2 ∧
      cstr h2 = cstr h := by
  subst hext
  have hlen : (stem ++ ['.', c1, c2, c3]).length = stem.length + 4 := by simp
  have hstem : stem ≠ [] := by
    intro e
    subst e
    simp only [List.nil_append, List.mem_cons, List.mem_nil_iff, or_false] at hbs
    rcases hbs with e | e | e | e
    · exact absurd e (by decide)
    · exact h1.1 e.symm
    · exact h2.1 e.symm
    · exact h3.1 e.symm
  have hnulstem : NUL ∉ stem := fun e => hnul (List.mem_append_left _ e)
  obtain ⟨a, ha, hca⟩ := get_archivefile_result archivefile _ hnul (by omega) hcapa
  have htake : (stem ++ ['.', c1, c2, c3]).take ((stem ++ ['.', c1, c2, c3]).length - 3)
      = stem ++ ['.'] := by
    have : stem ++ ['.', c1, c2, c3] = (stem ++ ['.']) ++ [c1, c2, c3] := by simp
    rw [hlen, this, List.take_append_of_le_length (by simp)]
    exact List.take_of_length_le (by simp)
  have hca2 : cstr a = stem ++ ['.', 'p', 'k', 'g'] := by
    rw [hca, htake]
    simp
  have hnul2 : NUL ∉ cstr a := by
    rw [hca2]
    intro e
    rcases List.mem_append.1 e with e | e
    · exact hnulstem e
    · revert e
      decide
  have hlen2 : (cstr a).length = stem.length + 4 := by
    rw [hca2]
    simp
  obtain ⟨h, hh, hch⟩ := get_homepath_result homepath _ hnul hcap (by omega)
  obtain ⟨k, hk, hck⟩ := get_homepath_result homepath2 (cstr a) hnul2 (by omega) (by omega)
  refine ⟨a, h, k, ha, hh, hk, ?_⟩
  have hl1 := get_homepath_loop_extension stem [c1, c2, c3] hstem (by
    simp only [List.mem_cons, List.mem_singleton, List.mem_nil_iff, or_false, not_or]
    exact ⟨fun e => h1.1 e.symm, fun e => h2.1 e.symm, fun e => h3.1 e.symm⟩)
  have hl2 := get_homepath_loop_extension stem ['p', 'k', 'g'] hstem (by decide)
  have hle := get_homepath_loop_le (stem ++ ['.']) stem.length
  have htk : ∀ t : List Char,
      List.take (get_homepath_loop (stem ++ ['.']) stem.length + 1) (stem ++ '.' :: t)
        = List.take (get_homepath_loop (stem ++ ['.']) stem.length + 1) (stem ++ ['.']) := by
    intro t
    have e : stem ++ '.' :: t = (stem ++ ['.']) ++ t := by simp
    rw [e, List.take_append_of_le_length (by simp; omega)]
  rw [hch, hck, hca2, hl1, hl2, htk ['p', 'k', 'g'], htk [c1, c2, c3]]

/-- C10 at the path `C:\apps\tool.exe`. -/
theorem archive_in_home_directory_witness :
    ∃ a h h2, get_archivefile (List.replicate 32 'x') "C:\\apps\\tool.exe".toList = some a ∧
      get_homepath (List.replicate 32 'y') "C:\\apps\\tool.exe".toList = some h ∧
      get_homepath (List.replicate 32 'z') (cstr a) = some h2 ∧
      cstr h2 = cstr h :=
  archive_in_home_directory (List.replicate 32 'x') (List.replicate 32 'y')
    (List.replicate 32 'z') "C:\\apps\\tool.exe".toList "C:\\apps\\tool".toList 'e' 'x' 'e'
    (by decide) (by decide) (by decide) (by decide) (by decide) (by decide)
    (by decide) (by decide) (by decide)

/-! ## `basename` -/

theorem strrchr_eq_none (s : List Char) (c : Char) (hc : c ≠ NUL) (h : c ∉ s) :
    strrchr s c = none := by
  induction s with
  | nil => simp [strrchr, hc]
  | cons x xs ih =>
    have hx : x ≠ c := fun e => h (by simp [e])
    have hxs : c ∉ xs := fun e => h (by simp [e])
    rw [strrchr]
    simp [hc, ih hxs, hx]

theorem strrchr_last (pre post : List Char) (c : Char) (hc : c ≠ NUL) (h : c ∉ post) :
    strrchr (pre ++ c :: post) c = some pre.length := by
  induction pre with
  | nil =>
    rw [List.nil_append, strrchr]
    simp [hc, strrchr_eq_none post c hc h]
  | cons x xs ih =>
    rw [List.cons_append, strrchr]
    simp [hc, ih]

/-- When the path holds a backslash, `basename` is what follows the last
backslash, forward slashes or not. -/
theorem basename_after_last_backslash (pre post : List Char) (h : '\\' ∉ post) :
    basename (pre ++ '\\' :: post) = post := by
  simp [basename, strrchr_last pre post '\\' (by decide) h]

/-- When the path holds a forward slash and no backslash, `basename` is what
follows the last forward slash. -/
theorem basename_after_last_slash (pre post : List Char)
    (hb : '\\' ∉ pre ++ '/' :: post) (h : '/' ∉ post) :
    basename (pre ++ '/' :: post) = post := by
  simp [basename, strrchr_eq_none _ '\\' (by decide) hb, strrchr_last pre post '/' (by decide) h]

/-- When the path holds neither separator, `basename` is the path itself. -/
theorem basename_no_separator (path : List Char) (hb : '\\' ∉ path) (hs : '/' ∉ path) :
    basename path = path := by
  simp [basename, strrchr_eq_none _ '\\' (by decide) hb, strrchr_eq_none _ '/' (by decide) hs]

/-- C7 at the path `C:\apps/tool.exe`: the last separator is the forward slash
and what follows it is `tool.exe`, while `basename` yields `apps/tool.exe`, the
part after the last backslash. -/
theorem basename_mixed_separators :
    basename "C:\\apps/tool.exe".toList = "apps/tool.exe".toList ∧
    "C:\\apps/tool.exe".toList = "C:\\apps".toList ++ '/' :: "tool.exe".toList ∧
    '\\' ∉ "tool.exe".toList ∧ '/' ∉ "tool.exe".toList ∧
    basename "C:\\apps/tool.exe".toList ≠ "tool.exe".toList := by
  decide

/-! ## `spawn` -/

/-- C1: in every run of `spawn` in which `CreateProcessW` succeeds and the exit
code retrieved for the child is the 32-bit value `c`, `spawn` returns `c` read
as a signed 32-bit integer: `c` itself below `2 ^ 31`, and `c - 2 ^ 32` from
`2 ^ 31` on. -/
theorem spawn_returns_exit_code (env : SpawnEnv) (table : SignalTable) (thisfile : List Char)
    (pi : PROCESS_INFORMATION) (c : Nat) (hlaunch : env.processInformation = some pi)
    (hcode : env.exitCode = some c) (hc : c < 2 ^ 32) :
    (spawn env table thisfile).1 = (if c < 2 ^ 31 then (c : Int) else (c : Int) - 2 ^ 32) ∧
      (c < 2 ^ 31 → (spawn env table thisfile).1 = (c : Int)) := by
  have hmod : c % 2 ^ 32 = c := Nat.mod_eq_of_lt hc
  have h : (spawn env table thisfile).1
      = (if c < 2 ^ 31 then (c : Int) else (c : Int) - 2 ^ 32) := by
    simp only [spawn, hlaunch, hcode, toInt32, hmod]
  refine ⟨h, fun hlt => ?_⟩
  rw [h, if_pos hlt]

/-- C1 at a child that exits with code 42: `spawn` returns 42. -/
theorem spawn_returns_exit_code_witness :
    (spawn (sampleSpawnEnv (some sampleChild) (some 42)) (fun _ => .SIG_DFL)
      "C:\\apps\\tool.exe".toList).1 = 42 :=
  (spawn_returns_exit_code (sampleSpawnEnv (some sampleChild) (some 42)) (fun _ => .SIG_DFL)
    "C:\\apps\\tool.exe".toList sampleChild 42 rfl rfl (by decide)).2 (by decide)

/-- C2: in every run of `spawn` in which `CreateProcessW` fails, `spawn` returns
`-1` and none of the calls it makes is `WaitForSingleObject` or
`GetExitCodeProcess`. -/
theorem spawn_launch_failure (env : SpawnEnv) (table : SignalTable) (thisfile : List Char)
    (hlaunch : env.processInformation = none) :
    (spawn env table thisfile).1 = -1 ∧
      ∀ call ∈ (spawn env table thisfile).2.2,
        call.isWait = false ∧ call.isGetExitCode = false := by
  constructor
  · simp only [spawn, hlaunch]
  · intro call hcall
    simp only [spawn, hlaunch, List.cons_append, List.nil_append, List.mem_cons,
      List.mem_singleton, List.mem_nil_iff, or_false] at hcall
    rcases hcall with h | h | h | h | h | h | h | h | h | h | h | h | h <;>
      subst h <;> exact ⟨rfl, rfl⟩

/-- C2 at a launch that fails. -/
theorem spawn_launch_failure_witness :
    (spawn (sampleSpawnEnv none none) (fun _ => .SIG_DFL) "C:\\nowhere.exe".toList).1 = -1 ∧
      ∀ call ∈ (spawn (sampleSpawnEnv none none) (fun _ => .SIG_DFL)
          "C:\\nowhere.exe".toList).2.2,
        call.isWait = false ∧ call.isGetExitCode = false :=
  spawn_launch_failure (sampleSpawnEnv none none) (fun _ => .SIG_DFL)
    "C:\\nowhere.exe".toList rfl

/-- C3: in every run of `spawn`, whether the launch succeeds or fails, the calls
made split into the calls before the one call of `CreateProcessW`, that call,
and the calls after it; the calls before it set each of the four signals
`SIGABRT`, `SIGINT`, `SIGTERM` and `SIGBREAK` to be ignored, and after them all
four are ignored; none of the calls after it
is `signal`; and the four signals are ignored in the table `spawn` leaves, which
is the table after all the calls made. -/
theorem spawn_ignores_signals_before_launch (env : SpawnEnv) (table : SignalTable)
    (thisfile : List Char) :
    ∃ before after,
      (spawn env table thisfile).2.2 = before ++ spawn.launch env thisfile :: after ∧
      (spawn.launch env thisfile).isCreateProcess = true ∧
      (∀ call ∈ before, call.isCreateProcess = false) ∧
      (∀ call ∈ after, call.isCreateProcess = false) ∧
      (∀ sig ∈ ignoredSignals, OsCall.signal sig .SIG_IGN ∈ before) ∧
      (∀ sig ∈ ignoredSignals, dispositionsAfter table before sig = .SIG_IGN) ∧
      (∀ call ∈ after, call.isSignal = false) ∧
      (spawn env table thisfile).2.1 = dispositionsAfter table (spawn env table thisfile).2.2 ∧
      (∀ sig ∈ ignoredSignals, (spawn env table thisfile).2.1 sig = .SIG_IGN) := by
  have hbefore : ∀ sig ∈ ignoredSignals,
      dispositionsAfter table [OsCall.signal .SIGABRT .SIG_IGN, OsCall.signal .SIGINT .SIG_IGN,
        OsCall.signal .SIGTERM .SIG_IGN, OsCall.signal .SIGBREAK .SIG_IGN,
        OsCall.VS "Setting up to run child\n" [], OsCall.GetStartupInfoW,
        OsCall.get_osfhandle (env.fileno .stdin), OsCall.get_osfhandle (env.fileno .stdout),
        OsCall.get_osfhandle (env.fileno .stderr), OsCall.VS "Creating child process\n" [],
        OsCall.GetCommandLineW] sig = .SIG_IGN := by
    intro sig hsig
    simp only [ignoredSignals, List.mem_cons, List.mem_singleton, List.mem_nil_iff,
      or_false] at hsig
    rcases hsig with h | h | h | h <;> subst h <;> simp [dispositionsAfter, signal]
  have hmem : ∀ sig ∈ ignoredSignals,
      OsCall.signal sig .SIG_IGN ∈ [OsCall.signal .SIGABRT .SIG_IGN,
        OsCall.signal .SIGINT .SIG_IGN,
        OsCall.signal .SIGTERM .SIG_IGN, OsCall.signal .SIGBREAK .SIG_IGN,
        OsCall.VS "Setting up to run child\n" [], OsCall.GetStartupInfoW,
        OsCall.get_osfhandle (env.fileno .stdin), OsCall.get_osfhandle (env.fileno .stdout),
        OsCall.get_osfhandle (env.fileno .stderr), OsCall.VS "Creating child process\n" [],
        OsCall.GetCommandLineW] := by
    intro sig hsig
    simp only [ignoredSignals, List.mem_cons, List.mem_singleton, List.mem_nil_iff,
      or_false] at hsig
    rcases hsig with h | h | h | h <;> subst h <;> simp
  have hpre : ∀ call ∈ [OsCall.signal .SIGABRT .SIG_IGN, OsCall.signal .SIGINT .SIG_IGN,
        OsCall.signal .SIGTERM .SIG_IGN, OsCall.signal .SIGBREAK .SIG_IGN,
        OsCall.VS "Setting up to run child\n" [], OsCall.GetStartupInfoW,
        OsCall.get_osfhandle (env.fileno .stdin), OsCall.get_osfhandle (env.fileno .stdout),
        OsCall.get_osfhandle (env.fileno .stderr), OsCall.VS "Creating child process\n" [],
        OsCall.GetCommandLineW], call.isCreateProcess = false := by
    intro call hcall
    simp only [List.mem_cons, List.mem_singleton, List.mem_nil_iff, or_false] at hcall
    rcases hcall with h | h | h | h | h | h | h | h | h | h | h <;> subst h <;> rfl
  have hfinal : ∀ sig ∈ ignoredSignals,
      signal (signal (signal (signal table .SIGABRT .SIG_IGN) .SIGINT .SIG_IGN)
        .SIGTERM .SIG_IGN) .SIGBREAK .SIG_IGN sig = .SIG_IGN := by
    intro sig hsig
    simp only [ignoredSignals, List.mem_cons, List.mem_singleton, List.mem_nil_iff,
      or_false] at hsig
    rcases hsig with h | h | h | h <;> subst h <;> simp [signal]
  rcases hpi : env.processInformation with _ | pi
  · refine ⟨_, [OsCall.FATALERROR "Error creating child process!\n"], ?_, rfl, hpre,
      ?_, hmem, hbefore, ?_, ?_, ?_⟩
    · simp only [spawn, hpi, List.cons_append, List.nil_append]
    · intro call hcall
      simp only [List.mem_singleton] at hcall
      subst hcall
      rfl
    · intro call hcall
      simp only [List.mem_singleton] at hcall
      subst hcall
      rfl
    · simp only [spawn, hpi, List.cons_append, List.nil_append, dispositionsAfter,
        spawn.launch]
    · simpa only [spawn, hpi] using hfinal
  · refine ⟨_, [OsCall.VS "Waiting for child process to finish...\n" [],
        OsCall.WaitForSingleObject pi.hProcess INFINITE,
        OsCall.GetExitCodeProcess pi.hProcess], ?_, rfl, hpre, ?_, hmem, hbefore, ?_, ?_, ?_⟩
    · simp only [spawn, hpi, List.cons_append, List.nil_append]
    · intro call hcall
      simp only [List.mem_cons, List.mem_singleton, List.mem_nil_iff, or_false] at hcall
      rcases hcall with h | h | h <;> subst h <;> rfl
    · intro call hcall
      simp only [List.mem_cons, List.mem_singleton, List.mem_nil_iff, or_false] at hcall
      rcases hcall with h | h | h <;> subst h <;> rfl
    · simp only [spawn, hpi, List.cons_append, List.nil_append, dispositionsAfter,
        spawn.launch]
    · simpa only [spawn, hpi] using hfinal

/-! ## The manifest path -/

theorem cstr_length_le (l r : List Char) : (cstr (l ++ NUL :: r)).length ≤ l.length := by
  induction l with
  | nil => simp [cstr]
  | cons x xs ih =>
    simp only [cstr] at ih ⊢
    rw [List.cons_append, List.takeWhile_cons]
    split
    · simpa using ih
    · simp

theorem strcpy_some (dst : CBuf) (off : Nat) (src : List Char)
    (h : off + src.length + 1 ≤ dst.length) :
    ∃ b, strcpy dst off src = some b ∧ b.length = dst.length ∧ strlen b ≤ off + src.length := by
  refine ⟨dst.take off ++ (src ++ NUL :: dst.drop (off + src.length + 1)), ?_, ?_, ?_⟩
  · simp [strcpy, h]
  · simp only [List.length_append, List.length_take, List.length_cons, List.length_drop]
    omega
  · have e : dst.take off ++ (src ++ NUL :: dst.drop (off + src.length + 1))
        = (dst.take off ++ src) ++ NUL :: dst.drop (off + src.length + 1) := by simp
    rw [strlen, e]
    refine le_trans (cstr_length_le _ _) ?_
    simp only [List.length_append, List.length_take]
    omega

/-- The manifest path is assembled without leaving the local array whenever the
work path, the base name and the suffix `.manifest` together have at most
`_MAX_PATH` characters. -/
theorem manifestpath_some (workpath thisfile : List Char)
    (hfit : workpath.length + (basename thisfile).length + 9 ≤ _MAX_PATH) :
    ∃ m, CreateActContext.manifestpath workpath thisfile = some m := by
  have hrep : (List.replicate (_MAX_PATH + 1) NUL).length = _MAX_PATH + 1 :=
    List.length_replicate _ _
  obtain ⟨b1, hb1, hl1, hs1⟩ := strcpy_some (List.replicate (_MAX_PATH + 1) NUL) 0 workpath
    (by rw [hrep]; omega)
  obtain ⟨b2, hb2, hl2, hs2⟩ := strcpy_some b1 (strlen b1) (basename thisfile)
    (by rw [hl1, hrep]; omega)
  have h9 : ".manifest".toList.length = 9 := by decide
  obtain ⟨b3, hb3, _, _⟩ := strcpy_some b2 (strlen b2) ".manifest".toList
    (by rw [hl2, hl1, hrep, h9]; omega)
  refine ⟨b3, ?_⟩
  unfold CreateActContext.manifestpath
  rw [hb1]
  dsimp only
  rw [strcat, hb2]
  dsimp only
  rw [strcat, hb3]

theorem strcat_append (s r src : List Char) (hs : NUL ∉ s)
    (hfit : s.length + src.length + 1 ≤ (s ++ NUL :: r).length) :
    ∃ r2, strcat (s ++ NUL :: r) src = some ((s ++ src) ++ NUL :: r2) ∧
      ((s ++ src) ++ NUL :: r2).length = (s ++ NUL :: r).length := by
  refine ⟨(s ++ NUL :: r).drop (s.length + src.length + 1), ?_, ?_⟩
  · simp only [strcat, strlen_append_NUL s r hs, strcpy, hfit, if_true]
    rw [List.take_left']
    · simp
    · rfl
  · simp only [List.length_append, List.length_cons, List.length_drop] at hfit ⊢
    omega

/-- The manifest path contract: for a work path and a self path free of
terminators that fit, the string handed to the context creation call is the
work path, then the base name of the self path, then `.manifest`. -/
theorem manifestpath_contract (workpath thisfile : List Char) (hw : NUL ∉ workpath)
    (ht : NUL ∉ thisfile)
    (hfit : workpath.length + (basename thisfile).length + 9 ≤ _MAX_PATH) :
    ∃ m, CreateActContext.manifestpath workpath thisfile = some m ∧
      cstr m = workpath ++ basename thisfile ++ ".manifest".toList := by
  have hb : NUL ∉ basename thisfile := by
    intro e
    apply ht
    simp only [basename] at e
    split at e
    · exact List.mem_of_mem_drop e
    · exact e
  have h9 : ".manifest".toList.length = 9 := by decide
  have hm : NUL ∉ ".manifest".toList := by decide
  have hrep : (List.replicate (_MAX_PATH + 1) NUL).length = _MAX_PATH + 1 :=
    List.length_replicate _ _
  have h1 := strcpy_zero (List.replicate (_MAX_PATH + 1) NUL) workpath (by rw [hrep]; omega)
  have hl1 : (workpath ++ NUL :: (List.replicate (_MAX_PATH + 1) NUL).drop
      (workpath.length + 1)).length = _MAX_PATH + 1 := by
    simp only [List.length_append, List.length_cons, List.length_drop, hrep]
    omega
  obtain ⟨r2, h2, hl2⟩ := strcat_append workpath _ (basename thisfile) hw
    (by rw [hl1]; omega)
  have hwb : NUL ∉ workpath ++ basename thisfile := by
    intro e
    rcases List.mem_append.1 e with e | e
    · exact hw e
    · exact hb e
  obtain ⟨r3, h3, _⟩ := strcat_append (workpath ++ basename thisfile) r2 ".manifest".toList hwb
    (by rw [hl2, hl1, List.length_append, h9]; omega)
  refine ⟨(workpath ++ basename thisfile ++ ".manifest".toList) ++ NUL :: r3, ?_, ?_⟩
  · unfold CreateActContext.manifestpath
    rw [h1]
    dsimp only
    rw [h2]
    dsimp only
    rw [h3]
  · apply cstr_append_NUL
    intro e
    rcases List.mem_append.1 e with e | e
    · exact hwb e
    · exact hm e

/-! ## `IsXPOrLater`, `CreateActContext` and `ReleaseActContext` -/

/-- `IsXPOrLater` is false exactly below version 5.1. -/
theorem IsXPOrLater_eq_false_iff (v : OSVERSIONINFO) :
    IsXPOrLater (some v) = false ↔
      (v.dwMajorVersion < 5 ∨ (v.dwMajorVersion = 5 ∧ v.dwMinorVersion = 0)) := by
  simp only [IsXPOrLater, Bool.or_eq_false_iff, Bool.and_eq_false_iff, decide_eq_false_iff_not]
  omega

/-- C5: on an XP-or-later platform where both entry points resolve (and the
manifest path fits its array) `CreateActContext` returns; it returns 1 exactly
when creation answers a handle other than `INVALID_HANDLE_VALUE` and activation
of that handle succeeds, and then `hCtx` is the created handle and `actToken`
the cookie of the activation; otherwise it returns 0 with `hCtx` equal to
`INVALID_HANDLE_VALUE`; and none of the calls it makes is `ReleaseActCtx`. -/
theorem CreateActContext_spec (env : CreateEnv) (st : ActState) (workpath thisfile : List Char)
    (hxp : IsXPOrLater env.version = true) (h1 : env.pCreateActCtx ≠ 0)
    (h2 : env.pActivateActCtx ≠ 0)
    (hfit : workpath.length + (basename thisfile).length + 9 ≤ _MAX_PATH) :
    ∃ r st2 calls, CreateActContext env st workpath thisfile = some (r, st2, calls) ∧
      (r = 1 ↔ env.created ≠ INVALID_HANDLE_VALUE ∧ ∃ k, env.activation = .activated k) ∧
      (∀ k, env.created ≠ INVALID_HANDLE_VALUE → env.activation = .activated k →
        r = 1 ∧ st2.hCtx = env.created ∧ st2.actToken = k ∧
          OsCall.ActivateActCtx env.created ∈ calls) ∧
      (r ≠ 1 → r = 0 ∧ st2.hCtx = INVALID_HANDLE_VALUE) ∧
      (∀ call ∈ calls, call.isRelease = false) := by
  obtain ⟨m, hm⟩ := manifestpath_some workpath thisfile hfit
  have hk32 : (env.pCreateActCtx = 0 || env.pActivateActCtx = 0) = false := by
    simp [h1, h2]
  by_cases hc : env.created = INVALID_HANDLE_VALUE
  · have heq : CreateActContext env st workpath thisfile
        = some (0, { st with hCtx := INVALID_HANDLE_VALUE },
          [OsCall.GetVersionEx, OsCall.VS "manifestpath: %s\n" [cstr m],
            OsCall.LoadLibrary "kernel32", OsCall.GetProcAddress env.k32 "CreateActCtxA",
            OsCall.GetProcAddress env.k32 "ActivateActCtx", OsCall.CreateActCtx (cstr m),
            OsCall.VS "Error activating the context\n" []]) := by
      simp only [CreateActContext, hxp, hm, hk32, hc, Bool.not_true, Bool.false_eq_true,
        if_false, ne_eq, not_true_eq_false, List.cons_append, List.nil_append]
    refine ⟨_, _, _, heq, ?_, ?_, ?_, ?_⟩
    · simp [hc]
    · intro k hk
      exact absurd hc hk
    · intro _
      exact ⟨rfl, rfl⟩
    · intro call hcall
      simp only [List.mem_cons, List.mem_singleton, List.mem_nil_iff, or_false] at hcall
      rcases hcall with h | h | h | h | h | h | h <;> subst h <;> rfl
  · rcases ha : env.activation with k | stored
    · have heq : CreateActContext env st workpath thisfile
          = some (1, { hCtx := env.created, actToken := k },
            [OsCall.GetVersionEx, OsCall.VS "manifestpath: %s\n" [cstr m],
              OsCall.LoadLibrary "kernel32", OsCall.GetProcAddress env.k32 "CreateActCtxA",
              OsCall.GetProcAddress env.k32 "ActivateActCtx", OsCall.CreateActCtx (cstr m),
              OsCall.VS "Activation context created\n" [], OsCall.ActivateActCtx env.created,
              OsCall.VS "Activation context activated\n" []]) := by
        simp only [CreateActContext, hxp, hm, hk32, hc, ha, Bool.not_true, Bool.false_eq_true,
          if_false, ne_eq, not_false_eq_true, if_true, List.cons_append, List.nil_append]
      refine ⟨_, _, _, heq, ?_, ?_, ?_, ?_⟩
      · simp [hc]
      · intro k2 _ hk2
        have : k = k2 := by
          injection hk2
        subst this
        refine ⟨rfl, rfl, rfl, ?_⟩
        simp
      · intro h
        exact absurd rfl h
      · intro call hcall
        simp only [List.mem_cons, List.mem_singleton, List.mem_nil_iff, or_false] at hcall
        rcases hcall with h | h | h | h | h | h | h | h | h <;> subst h <;> rfl
    · have heq : CreateActContext env st workpath thisfile
          = some (0, { hCtx := INVALID_HANDLE_VALUE, actToken := stored.getD st.actToken },
            [OsCall.GetVersionEx, OsCall.VS "manifestpath: %s\n" [cstr m],
              OsCall.LoadLibrary "kernel32", OsCall.GetProcAddress env.k32 "CreateActCtxA",
              OsCall.GetProcAddress env.k32 "ActivateActCtx", OsCall.CreateActCtx (cstr m),
              OsCall.VS "Activation context created\n" [], OsCall.ActivateActCtx env.created,
              OsCall.VS "Error activating the context\n" []]) := by
        simp only [CreateActContext, hxp, hm, hk32, hc, ha, Bool.not_true, Bool.false_eq_true,
          if_false, ne_eq, not_false_eq_true, if_true, List.cons_append, List.nil_append]
      refine ⟨_, _, _, heq, ?_, ?_, ?_, ?_⟩
      · simp
      · intro k2 _ hk2
        exact absurd hk2 (by simp)
      · intro _
        exact ⟨rfl, rfl⟩
      · intro call hcall
        simp only [List.mem_cons, List.mem_singleton, List.mem_nil_iff, or_false] at hcall
        rcases hcall with h | h | h | h | h | h | h | h | h <;> subst h <;> rfl

/-- C5 at a run in which creation answers the handle `0x150000` and activation
the cookie `0x2A`. -/
theorem CreateActContext_spec_witness :
    ∃ r st2 calls, CreateActContext (sampleCreateEnv 0x150000 (.activated 0x2A))
        ActState.initial "C:\\tmp\\_MEI42\\".toList "C:\\apps\\tool.exe".toList
        = some (r, st2, calls) ∧
      (r = 1 ↔ (0x150000 : HANDLE) ≠ INVALID_HANDLE_VALUE ∧
        ∃ k, ActivateResult.activated 0x2A = .activated k) ∧
      (∀ k, (0x150000 : HANDLE) ≠ INVALID_HANDLE_VALUE →
        ActivateResult.activated 0x2A = .activated k →
        r = 1 ∧ st2.hCtx = 0x150000 ∧ st2.actToken = k ∧
          OsCall.ActivateActCtx 0x150000 ∈ calls) ∧
      (r ≠ 1 → r = 0 ∧ st2.hCtx = INVALID_HANDLE_VALUE) ∧
      (∀ call ∈ calls, call.isRelease = false) :=
  CreateActContext_spec (sampleCreateEnv 0x150000 (.activated 0x2A)) ActState.initial
    "C:\\tmp\\_MEI42\\".toList "C:\\apps\\tool.exe".toList (by decide) (by decide) (by decide)
    (by decide)

/-- C6: on every platform whose reported version is below 5.1, `IsXPOrLater`
is false, `CreateActContext` returns 1 and `ReleaseActContext` returns, both
leave `hCtx` and `actToken` as they were, and the only call either makes is
`GetVersionEx`: no library load, entry-point lookup, context creation,
activation, deactivation or release. -/
theorem pre_XP_is_noop (cenv : CreateEnv) (renv : ReleaseEnv) (st : ActState)
    (workpath thisfile : List Char) (vc vr : OSVERSIONINFO)
    (hvc : cenv.version = some vc) (hvr : renv.version = some vr)
    (hc : vc.dwMajorVersion < 5 ∨ (vc.dwMajorVersion = 5 ∧ vc.dwMinorVersion = 0))
    (hr : vr.dwMajorVersion < 5 ∨ (vr.dwMajorVersion = 5 ∧ vr.dwMinorVersion = 0)) :
    IsXPOrLater cenv.version = false ∧ IsXPOrLater renv.version = false ∧
      CreateActContext cenv st workpath thisfile = some (1, st, [OsCall.GetVersionEx]) ∧
      ReleaseActContext renv st = some (st, [OsCall.GetVersionEx]) ∧
      (∀ call ∈ [OsCall.GetVersionEx], call.isActCtxWork = false) := by
  have h1 : IsXPOrLater cenv.version = false := by
    rw [hvc]
    exact (IsXPOrLater_eq_false_iff vc).2 hc
  have h2 : IsXPOrLater renv.version = false := by
    rw [hvr]
    exact (IsXPOrLater_eq_false_iff vr).2 hr
  refine ⟨h1, h2, ?_, ?_, ?_⟩
  · rw [CreateActContext, h1]
    rfl
  · rw [ReleaseActContext, h2]
    rfl
  · intro call hcall
    simp only [List.mem_singleton] at hcall
    subst hcall
    rfl

/-- C6 on Windows 2000 (version 5.0), with the variables holding a live context. -/
theorem pre_XP_is_noop_witness :
    IsXPOrLater (some windows2000) = false ∧ IsXPOrLater (some windows2000) = false ∧
      CreateActContext { sampleCreateEnv 0x150000 (.activated 0x2A) with version := some windows2000 }
        { hCtx := 0x140000, actToken := 7 } "C:\\tmp\\".toList "C:\\apps\\tool.exe".toList
        = some (1, { hCtx := 0x140000, actToken := 7 }, [OsCall.GetVersionEx]) ∧
      ReleaseActContext { sampleReleaseEnv with version := some windows2000 }
        { hCtx := 0x140000, actToken := 7 }
        = some ({ hCtx := 0x140000, actToken := 7 }, [OsCall.GetVersionEx]) ∧
      (∀ call ∈ [OsCall.GetVersionEx], call.isActCtxWork = false) :=
  pre_XP_is_noop { sampleCreateEnv 0x150000 (.activated 0x2A) with version := some windows2000 }
    { sampleReleaseEnv with version := some windows2000 } { hCtx := 0x140000, actToken := 7 }
    "C:\\tmp\\".toList "C:\\apps\\tool.exe".toList windows2000 windows2000 rfl rfl
    (by decide) (by decide)

/-! ## Enter, exit, enter, exit -/

theorem releasedHandles_append (a b : List OsCall) :
    releasedHandles (a ++ b) = releasedHandles a ++ releasedHandles b := by
  simp [releasedHandles, List.filterMap_append]

/-- A successful `CreateActContext` stores the created handle and the cookie,
and releases nothing. -/
theorem CreateActContext_succeeds (env : CreateEnv) (st : ActState)
    (workpath thisfile : List Char) (h : HANDLE) (k : ULONG_PTR) (hs : env.succeeds h k)
    (hfit : workpath.length + (basename thisfile).length + 9 ≤ _MAX_PATH) :
    ∃ calls, CreateActContext env st workpath thisfile
        = some (1, { hCtx := h, actToken := k }, calls) ∧
      releasedHandles calls = [] := by
  obtain ⟨hxp, h1, h2, hcr, hv, ha⟩ := hs
  obtain ⟨m, hm⟩ := manifestpath_some workpath thisfile hfit
  have hk32 : (env.pCreateActCtx = 0 || env.pActivateActCtx = 0) = false := by
    simp [h1, h2]
  subst hcr
  have hc : ¬ env.created = INVALID_HANDLE_VALUE := hv
  refine ⟨[OsCall.GetVersionEx, OsCall.VS "manifestpath: %s\n" [cstr m],
      OsCall.LoadLibrary "kernel32", OsCall.GetProcAddress env.k32 "CreateActCtxA",
      OsCall.GetProcAddress env.k32 "ActivateActCtx", OsCall.CreateActCtx (cstr m),
      OsCall.VS "Activation context created\n" [], OsCall.ActivateActCtx env.created,
      OsCall.VS "Activation context activated\n" []], ?_, rfl⟩
  simp only [CreateActContext, hxp, hm, hk32, hc, ha, Bool.not_true, Bool.false_eq_true,
    if_false, ne_eq, not_false_eq_true, if_true, List.cons_append, List.nil_append]

/-- A successful `ReleaseActContext` on a stored handle other than
`INVALID_HANDLE_VALUE` passes that handle to `ReleaseActCtx` once and leaves
both variables as they were. -/
theorem ReleaseActContext_succeeds (env : ReleaseEnv) (st : ActState) (hs : env.succeeds)
    (hh : st.hCtx ≠ INVALID_HANDLE_VALUE) :
    ∃ calls, ReleaseActContext env st = some (st, calls) ∧
      releasedHandles calls = [st.hCtx] := by
  obtain ⟨hxp, h1, h2, hd⟩ := hs
  have hk32 : (env.pReleaseActCtx = 0 || env.pDeactivateActCtx = 0) = false := by
    simp [h1, h2]
  refine ⟨[OsCall.GetVersionEx, OsCall.LoadLibrary "kernel32",
      OsCall.GetProcAddress env.k32 "ReleaseActCtx",
      OsCall.GetProcAddress env.k32 "DeactivateActCtx",
      OsCall.VS "Deactivating activation context\n" [],
      OsCall.DeactivateActCtx 0 st.actToken,
      OsCall.VS "Releasing activation context\n" [],
      OsCall.ReleaseActCtx st.hCtx, OsCall.VS "Done\n" []], ?_, rfl⟩
  simp only [ReleaseActContext, hxp, hk32, hd, hh, Bool.not_true, Bool.false_eq_true,
    if_false, ne_eq, not_false_eq_true, if_true, List.cons_append, List.nil_append]

/-- The outcome of enter, exit, enter, exit when every step succeeds: the
variables end as the second enter set them, and the handles released are the
first created handle and then the second. -/
theorem enterExitTwice_result (e1 : CreateEnv) (e2 : ReleaseEnv) (e3 : CreateEnv)
    (e4 : ReleaseEnv) (st : ActState) (workpath thisfile : List Char) (h1 h2 : HANDLE)
    (k1 k2 : ULONG_PTR) (hs1 : e1.succeeds h1 k1) (hs2 : e2.succeeds)
    (hs3 : e3.succeeds h2 k2) (hs4 : e4.succeeds)
    (hfit : workpath.length + (basename thisfile).length + 9 ≤ _MAX_PATH) :
    ∃ calls, enterExitTwice e1 e2 e3 e4 st workpath thisfile
        = some ({ hCtx := h2, actToken := k2 }, calls) ∧
      releasedHandles calls = [h1, h2] := by
  obtain ⟨t1, ht1, hr1⟩ := CreateActContext_succeeds e1 st workpath thisfile h1 k1 hs1 hfit
  obtain ⟨t2, ht2, hr2⟩ := ReleaseActContext_succeeds e2 { hCtx := h1, actToken := k1 } hs2
    hs1.2.2.2.2.1
  obtain ⟨t3, ht3, hr3⟩ := CreateActContext_succeeds e3 { hCtx := h1, actToken := k1 }
    workpath thisfile h2 k2 hs3 hfit
  obtain ⟨t4, ht4, hr4⟩ := ReleaseActContext_succeeds e4 { hCtx := h2, actToken := k2 } hs4
    hs3.2.2.2.2.1
  refine ⟨t1 ++ t2 ++ t3 ++ t4, ?_, ?_⟩
  · simp only [enterExitTwice, ht1, ht2, ht3, ht4]
  · simp only [releasedHandles_append, hr1, hr2, hr3, hr4, List.nil_append, List.cons_append]

/-- C4, as stated, fails: on Windows XP, with every lookup, creation,
activation and deactivation succeeding and the two creations answering the
handles `0x150000` and `0x160000`, the sequence enter, exit, enter, exit ends
with `hCtx` equal to `0x160000`, which is not `INVALID_HANDLE_VALUE`. -/
theorem enterExitTwice_leaves_handle :
    (sampleCreateEnv 0x150000 (.activated 0x2A)).succeeds 0x150000 0x2A ∧
    sampleReleaseEnv.succeeds ∧
    (sampleCreateEnv 0x160000 (.activated 0x2B)).succeeds 0x160000 0x2B ∧
    Option.map (fun r => r.1.hCtx)
      (enterExitTwice (sampleCreateEnv 0x150000 (.activated 0x2A)) sampleReleaseEnv
        (sampleCreateEnv 0x160000 (.activated 0x2B)) sampleReleaseEnv ActState.initial
        "C:\\tmp\\_MEI42\\".toList "C:\\apps\\tool.exe".toList) = some 0x160000 ∧
    (0x160000 : HANDLE) ≠ INVALID_HANDLE_VALUE := by
  have hs1 : (sampleCreateEnv 0x150000 (.activated 0x2A)).succeeds 0x150000 0x2A :=
    ⟨by decide, by decide, by decide, rfl, by decide, rfl⟩
  have hs2 : sampleReleaseEnv.succeeds := ⟨by decide, by decide, by decide, rfl⟩
  have hs3 : (sampleCreateEnv 0x160000 (.activated 0x2B)).succeeds 0x160000 0x2B :=
    ⟨by decide, by decide, by decide, rfl, by decide, rfl⟩
  obtain ⟨calls, hcalls, _⟩ := enterExitTwice_result _ _ _ _ ActState.initial
    "C:\\tmp\\_MEI42\\".toList "C:\\apps\\tool.exe".toList _ _ _ _ hs1 hs2 hs3 hs2 (by decide)
  refine ⟨hs1, hs2, hs3, ?_, by decide⟩
  rw [hcalls]
  rfl

/-- C4 (amended): on an XP-or-later platform where every entry-point lookup,
context creation, activation and deactivation succeeds (and the manifest path
fits its array), the sequence enter, exit, enter, exit returns and ends with
`hCtx` equal to the handle of the second creation, not to
`INVALID_HANDLE_VALUE`; `ReleaseActCtx` is called exactly twice, with the handle
of the first creation and then with the handle of the second, so that the first
handle is passed to it exactly once whenever the second creation answers a
different handle. -/
theorem enterExitTwice_spec (e1 : CreateEnv) (e2 : ReleaseEnv) (e3 : CreateEnv)
    (e4 : ReleaseEnv) (st : ActState) (workpath thisfile : List Char) (h1 h2 : HANDLE)
    (k1 k2 : ULONG_PTR) (hs1 : e1.succeeds h1 k1) (hs2 : e2.succeeds)
    (hs3 : e3.succeeds h2 k2) (hs4 : e4.succeeds)
    (hfit : workpath.length + (basename thisfile).length + 9 ≤ _MAX_PATH) :
    ∃ st2 calls, enterExitTwice e1 e2 e3 e4 st workpath thisfile = some (st2, calls) ∧
      st2.hCtx = h2 ∧ st2.hCtx ≠ INVALID_HANDLE_VALUE ∧
      releasedHandles calls = [h1, h2] ∧
      (h1 ≠ h2 → (releasedHandles calls).count h1 = 1) := by
  obtain ⟨calls, hcalls, hrel⟩ := enterExitTwice_result e1 e2 e3 e4 st workpath thisfile
    h1 h2 k1 k2 hs1 hs2 hs3 hs4 hfit
  refine ⟨_, calls, hcalls, rfl, hs3.2.2.2.2.1, hrel, ?_⟩
  intro hne
  rw [hrel]
  simp [List.count_cons, hne]

/-- C4 (amended) on Windows XP with the two creations answering `0x150000` and
`0x160000`. -/
theorem enterExitTwice_spec_witness :
    ∃ st2 calls, enterExitTwice (sampleCreateEnv 0x150000 (.activated 0x2A)) sampleReleaseEnv
        (sampleCreateEnv 0x160000 (.activated 0x2B)) sampleReleaseEnv ActState.initial
        "C:\\tmp\\_MEI42\\".toList "C:\\apps\\tool.exe".toList = some (st2, calls) ∧
      st2.hCtx = 0x160000 ∧ st2.hCtx ≠ INVALID_HANDLE_VALUE ∧
      releasedHandles calls = [0x150000, 0x160000] ∧
      ((0x150000 : HANDLE) ≠ 0x160000 → (releasedHandles calls).count 0x150000 = 1) :=
  enterExitTwice_spec (sampleCreateEnv 0x150000 (.activated 0x2A)) sampleReleaseEnv
    (sampleCreateEnv 0x160000 (.activated 0x2B)) sampleReleaseEnv ActState.initial
    "C:\\tmp\\_MEI42\\".toList "C:\\apps\\tool.exe".toList 0x150000 0x160000 0x2A 0x2B
    ⟨by decide, by decide, by decide, rfl, by decide, rfl⟩
    ⟨by decide, by decide, by decide, rfl⟩
    ⟨by decide, by decide, by decide, rfl, by decide, rfl⟩
    ⟨by decide, by decide, by decide, rfl⟩ (by decide)

end Bootloader
